import Mathlib

/-!
Verification of the `techarm/rust-todo` repository against its
specification.  The entity types, `Todo::new`, `RepositoryError`,
`TodoRepositoryForMemory::new` and the HTTP handlers `create_todo` /
`create_user` are embedded directly from the Rust source
(`src/src/main.rs`, `src/src/handlers.rs`,
`src/todo-api/src/repositories.rs`).  The bodies of the memory
repository's CRUD operations are `todo!()` stubs in `src/src/main.rs`
and the `todo-api` crate's `repositories::todo` module is not part of
the available sources, so those operations are modelled from the
specification (each such definition says so in its doc comment).

Rust `i32` ids are modelled as unbounded integers (the spec describes
ids as integers assigned monotonically from 1 and never mentions
wrap-around); `HashMap<i32, Todo>` is modelled as an association list
kept in insertion order, as §4.1 of the spec demands for the memory
backend's `all()`.
-/

/-- The `Todo` entity from `src/src/main.rs` (fields `id`, `text`,
`completed`). -/
structure Todo where
  id : Int
  text : String
  completed : Bool
deriving Repr, DecidableEq

/-- `Todo::new` from `src/src/main.rs`: `Self { id, text, completed: false }`. -/
def Todo.new (id : Int) (text : String) : Todo :=
  { id := id, text := text, completed := false }

/-- The `CreateTodo` payload from `src/src/main.rs` (field `text`). -/
structure CreateTodo where
  text : String
deriving Repr, DecidableEq

/-- The `UpdateTodo` payload from `src/src/main.rs` (optional `text`,
optional `completed`). -/
structure UpdateTodo where
  text : Option String
  completed : Option Bool
deriving Repr, DecidableEq

/-- `RepositoryError` from `src/todo-api/src/repositories.rs`
(`Unexpected(String)`, `NotFound(i32)`, `Duplicate(i32)`; the variant
set in `src/src/main.rs` is the subset `NotFound`). -/
inductive RepositoryError where
  | Unexpected (msg : String)
  | NotFound (id : Int)
  | Duplicate (id : Int)
deriving Repr, DecidableEq

/-- The memory repository `TodoRepositoryForMemory` from
`src/src/main.rs`: a store mapping ids to todos (modelled as an
insertion-ordered association list) together with the next id to
assign (§4.2 of the spec: "An auxiliary counter tracks the next id to
assign"). -/
structure TodoRepositoryForMemory where
  store : List (Int × Todo)
  nextId : Int
deriving Repr, DecidableEq

namespace TodoRepositoryForMemory

/-- `TodoRepositoryForMemory::new` from `src/src/main.rs`:
`store: Arc::default()` is the empty map; the id counter starts so
that ids are assigned from 1 (spec §3). -/
def new : TodoRepositoryForMemory :=
  { store := [], nextId := 1 }

/-- Modelled from the spec: the body of
`TodoRepositoryForMemory::create` is a `todo!()` stub in
`src/src/main.rs`.  Spec §4.1: "always succeeds; assigns the next
unused id; stores and returns the new entity"; the new entity is built
by `Todo::new`, so `completed` starts `false`. -/
def create (r : TodoRepositoryForMemory) (payload : CreateTodo) :
    Todo × TodoRepositoryForMemory :=
  let todo := Todo.new r.nextId payload.text
  (todo, { store := r.store ++ [(r.nextId, todo)], nextId := r.nextId + 1 })

/-- Modelled from the spec: the body of
`TodoRepositoryForMemory::find` is a `todo!()` stub in
`src/src/main.rs`.  Spec §4.1: "returns the entity if present, else an
empty result (not an error)". -/
def find (r : TodoRepositoryForMemory) (id : Int) : Option Todo :=
  (r.store.find? (fun kv => kv.1 = id)).map Prod.snd

/-- Modelled from the spec: the body of
`TodoRepositoryForMemory::all` is a `todo!()` stub in
`src/src/main.rs`.  Spec §4.1: "returns every stored entity; order is
insertion order for the memory backend". -/
def all (r : TodoRepositoryForMemory) : List Todo :=
  r.store.map Prod.snd

/-- Modelled from the spec: the body of
`TodoRepositoryForMemory::update` is a `todo!()` stub in
`src/src/main.rs`.  Spec §4.1: "fails with `NotFound` if `id` is
absent; otherwise applies only the fields present in `payload`, leaves
others unchanged, and returns the updated entity"; the entity's id is
immutable (spec §3). -/
def update (r : TodoRepositoryForMemory) (id : Int) (payload : UpdateTodo) :
    Except RepositoryError (Todo × TodoRepositoryForMemory) :=
  match r.find id with
  | none => .error (.NotFound id)
  | some t =>
    let t2 : Todo :=
      { id := t.id
        text := payload.text.getD t.text
        completed := payload.completed.getD t.completed }
    .ok (t2, { store := r.store.map (fun kv => if kv.1 = id then (id, t2) else kv)
               nextId := r.nextId })

/-- Modelled from the spec: the body of
`TodoRepositoryForMemory::delete` is a `todo!()` stub in
`src/src/main.rs`.  Spec §4.1: "fails with `NotFound` if `id` is
absent; otherwise removes the entity and signals success with no
payload". -/
def delete (r : TodoRepositoryForMemory) (id : Int) :
    Except RepositoryError TodoRepositoryForMemory :=
  match r.find id with
  | none => .error (.NotFound id)
  | some _ => .ok { store := r.store.filter (fun kv => kv.1 ≠ id), nextId := r.nextId }

/-- The ids currently present in the store. -/
def keys (r : TodoRepositoryForMemory) : List Int :=
  r.store.map Prod.fst

/-- Well-formedness of a repository state: every stored pair maps an id
to a todo carrying that id, every stored id is below the counter, and
stored ids are pairwise distinct.  `WF` holds for `new` and is
preserved by every operation, so it holds in every reachable state. -/
def WF (r : TodoRepositoryForMemory) : Prop :=
  (∀ kv ∈ r.store, kv.2.id = kv.1 ∧ kv.1 < r.nextId) ∧ r.keys.Nodup

instance (r : TodoRepositoryForMemory) : Decidable r.WF := by
  unfold WF
  infer_instance

end TodoRepositoryForMemory

/-- A mutating repository call, for describing traces of operations
against the memory backend. -/
inductive Op where
  | create (p : CreateTodo)
  | update (id : Int) (p : UpdateTodo)
  | delete (id : Int)
deriving Repr, DecidableEq

/-- The state after one call: a failed `update`/`delete` leaves the
store untouched. -/
def step (r : TodoRepositoryForMemory) : Op → TodoRepositoryForMemory
  | .create p => (r.create p).2
  | .update id p =>
    match r.update id p with
    | .ok x => x.2
    | .error _ => r
  | .delete id =>
    match r.delete id with
    | .ok r2 => r2
    | .error _ => r

/-- The state reached by running a trace of calls against a fresh
memory repository. -/
def run (ops : List Op) : TodoRepositoryForMemory :=
  ops.foldl step TodoRepositoryForMemory.new

/-- The ids issued by the `create` calls of a trace started in state
`r`, in order. -/
def issuedFrom (r : TodoRepositoryForMemory) : List Op → List Int
  | [] => []
  | .create p :: rest => (r.create p).1.id :: issuedFrom (step r (.create p)) rest
  | .update id p :: rest => issuedFrom (step r (.update id p)) rest
  | .delete id :: rest => issuedFrom (step r (.delete id)) rest

/-- The HTTP handler `create_todo` from `src/src/handlers.rs` (also
`src/src/main.rs`): one repository `create` call, response
`(StatusCode::CREATED, Json(todo))`.  Status codes are modelled as
numerals. -/
def create_todo (r : TodoRepositoryForMemory) (payload : CreateTodo) :
    (Nat × Todo) × TodoRepositoryForMemory :=
  let x := r.create payload
  ((201, x.1), x.2)

/-- The `CreateUser` payload from `src/src/main.rs`. -/
structure CreateUser where
  username : String
deriving Repr, DecidableEq

/-- The `User` response body from `src/src/main.rs` (`id: u64`,
`username`). -/
structure User where
  id : Nat
  username : String
deriving Repr, DecidableEq

/-- The HTTP handler `create_user` from `src/src/main.rs`: responds
`(StatusCode::CREATED, Json(User { id: 1337, username: payload.username }))`. -/
def create_user (payload : CreateUser) : Nat × User :=
  (201, { id := 1337, username := payload.username })

/-- Modelled from the spec: the `Label` entity (spec §3) — the
`todo-api` crate's `repositories::label` module is absent from the
sources.  `id` integer assigned by the repository on creation, `name`
string required. -/
structure Label where
  id : Int
  name : String
deriving Repr, DecidableEq

/-- Modelled from the spec: the `CreateLabel` payload, the body
`{name}` of POST `/labels` (spec §6). -/
structure CreateLabel where
  name : String
deriving Repr, DecidableEq

/-- Modelled from the spec: the database backend `TodoRepositoryForDb`
(spec §4.3) — the `todo-api` crate's `repositories::todo` module is
absent from the sources.  The relational table is modelled as rows
keyed by the primary-key id together with the key sequence; whether
the pooled connection is up is passed explicitly, since a connection
failure changes each operation's result (spec §7). -/
structure TodoRepositoryForDb where
  rows : List (Int × Todo)
  nextId : Int
deriving Repr, DecidableEq

namespace TodoRepositoryForDb

/-- Modelled from the spec: `create` as one INSERT (spec §4.3); on a
connection failure the operation surfaces `Unexpected`, distinct from
`NotFound` (spec §4.3/§7). -/
def create (db : TodoRepositoryForDb) (conn : Bool) (payload : CreateTodo) :
    Except RepositoryError (Todo × TodoRepositoryForDb) :=
  if conn then
    let todo := Todo.new db.nextId payload.text
    .ok (todo, { rows := db.rows ++ [(db.nextId, todo)], nextId := db.nextId + 1 })
  else
    .error (.Unexpected "fail connect database")

/-- Modelled from the spec: `find` as one SELECT by id (spec §4.3);
the entity if the row exists, else an empty result. -/
def find (db : TodoRepositoryForDb) (conn : Bool) (id : Int) :
    Except RepositoryError (Option Todo) :=
  if conn then
    .ok ((db.rows.find? (fun kv => kv.1 = id)).map Prod.snd)
  else
    .error (.Unexpected "fail connect database")

/-- Modelled from the spec: `all` as one SELECT of every row (spec
§4.3); order is backend-default, modelled as row order. -/
def all (db : TodoRepositoryForDb) (conn : Bool) :
    Except RepositoryError (List Todo) :=
  if conn then
    .ok (db.rows.map Prod.snd)
  else
    .error (.Unexpected "fail connect database")

/-- Modelled from the spec: `update` as one UPDATE statement;
`NotFound` is synthesized when it affects zero rows (spec §4.3), and
only the fields present in the payload change (spec §4.1). -/
def update (db : TodoRepositoryForDb) (conn : Bool) (id : Int) (payload : UpdateTodo) :
    Except RepositoryError (Todo × TodoRepositoryForDb) :=
  if conn then
    match (db.rows.find? (fun kv => kv.1 = id)).map Prod.snd with
    | none => .error (.NotFound id)
    | some t =>
      let t2 : Todo :=
        { id := t.id
          text := payload.text.getD t.text
          completed := payload.completed.getD t.completed }
      .ok (t2, { rows := db.rows.map (fun kv => if kv.1 = id then (id, t2) else kv)
                 nextId := db.nextId })
  else
    .error (.Unexpected "fail connect database")

/-- Modelled from the spec: `delete` as one DELETE statement;
`NotFound` when zero rows are affected (spec §4.3). -/
def delete (db : TodoRepositoryForDb) (conn : Bool) (id : Int) :
    Except RepositoryError TodoRepositoryForDb :=
  if conn then
    match (db.rows.find? (fun kv => kv.1 = id)).map Prod.snd with
    | none => .error (.NotFound id)
    | some _ => .ok { rows := db.rows.filter (fun kv => kv.1 ≠ id), nextId := db.nextId }
  else
    .error (.Unexpected "fail connect database")

end TodoRepositoryForDb

/-- Modelled from the spec: the memory label repository
`LabelRepositoryForMemory` (spec §4.1: for `Label` only
create/all/delete are exposed) — the `todo-api` crate's
`repositories::label` module is absent from the sources. -/
structure LabelRepositoryForMemory where
  store : List (Int × Label)
  nextId : Int
deriving Repr, DecidableEq

namespace LabelRepositoryForMemory

/-- Modelled from the spec: label `create` always succeeds and assigns
the next unused id (spec §4.1/§3). -/
def create (r : LabelRepositoryForMemory) (payload : CreateLabel) :
    Label × LabelRepositoryForMemory :=
  let label : Label := { id := r.nextId, name := payload.name }
  (label, { store := r.store ++ [(r.nextId, label)], nextId := r.nextId + 1 })

/-- Modelled from the spec: label `all` returns every stored entity in
insertion order (spec §4.1). -/
def all (r : LabelRepositoryForMemory) : List Label :=
  r.store.map Prod.snd

/-- Modelled from the spec: label `delete` fails with `NotFound` if
the id is absent, otherwise removes the entity (spec §4.1). -/
def delete (r : LabelRepositoryForMemory) (id : Int) :
    Except RepositoryError LabelRepositoryForMemory :=
  match (r.store.find? (fun kv => kv.1 = id)).map Prod.snd with
  | none => .error (.NotFound id)
  | some _ => .ok { store := r.store.filter (fun kv => kv.1 ≠ id), nextId := r.nextId }

end LabelRepositoryForMemory

/-- Modelled from the spec: the database backend `LabelRepositoryForDb`
(spec §4.3) — the `todo-api` crate's `repositories::label` module is
absent from the sources; modelled like `TodoRepositoryForDb`. -/
structure LabelRepositoryForDb where
  rows : List (Int × Label)
  nextId : Int
deriving Repr, DecidableEq

namespace LabelRepositoryForDb

/-- Modelled from the spec: label `create` as one INSERT (spec §4.3);
`Unexpected` on connection failure (spec §7). -/
def create (db : LabelRepositoryForDb) (conn : Bool) (payload : CreateLabel) :
    Except RepositoryError (Label × LabelRepositoryForDb) :=
  if conn then
    let label : Label := { id := db.nextId, name := payload.name }
    .ok (label, { rows := db.rows ++ [(db.nextId, label)], nextId := db.nextId + 1 })
  else
    .error (.Unexpected "fail connect database")

/-- Modelled from the spec: label `all` as one SELECT of every row
(spec §4.3). -/
def all (db : LabelRepositoryForDb) (conn : Bool) :
    Except RepositoryError (List Label) :=
  if conn then
    .ok (db.rows.map Prod.snd)
  else
    .error (.Unexpected "fail connect database")

/-- Modelled from the spec: label `delete` as one DELETE statement;
`NotFound` when zero rows are affected (spec §4.3). -/
def delete (db : LabelRepositoryForDb) (conn : Bool) (id : Int) :
    Except RepositoryError LabelRepositoryForDb :=
  if conn then
    match (db.rows.find? (fun kv => kv.1 = id)).map Prod.snd with
    | none => .error (.NotFound id)
    | some _ => .ok { rows := db.rows.filter (fun kv => kv.1 ≠ id), nextId := db.nextId }
  else
    .error (.Unexpected "fail connect database")

end LabelRepositoryForDb

/-- C10: a memory repository freshly constructed by
`TodoRepositoryForMemory::new()` has an empty store: no entity is
present before the first `create` call. -/
theorem new_store_empty :
    TodoRepositoryForMemory.new.store = [] ∧
    ∀ k : Int, TodoRepositoryForMemory.new.find k = none := by
  constructor
  · rfl
  · intro k
    rfl

/-- C7: for every payload and repository state, the create-todo HTTP
handler performs exactly one repository `create` call — its resulting
state is the post-state of that single call — and responds with status
201 whose body is the entity returned by the repository. -/
theorem create_todo_handler_spec (r : TodoRepositoryForMemory) (payload : CreateTodo) :
    (create_todo r payload).1.1 = 201 ∧
    (create_todo r payload).1.2 = (r.create payload).1 ∧
    (create_todo r payload).2 = (r.create payload).2 := by
  exact ⟨rfl, rfl, rfl⟩

/-- C8: for every well-formed `CreateUser` payload `{username: u}`,
`create_user` responds with status 201 and body
`{id: 1337, username: u}`; in particular the username `"techarm"`
yields `{id: 1337, username: "techarm"}`. -/
theorem create_user_spec :
    (∀ u : String, create_user { username := u } =
      (201, { id := 1337, username := u })) ∧
    create_user { username := "techarm" } =
      (201, { id := 1337, username := "techarm" }) := by
  exact ⟨fun _ => rfl, rfl⟩

namespace TodoRepositoryForMemory

theorem mem_keys_iff (r : TodoRepositoryForMemory) (k : Int) :
    k ∈ r.keys ↔ ∃ kv ∈ r.store, kv.1 = k := by
  simp [keys, List.mem_map]

theorem find_eq_none_iff (r : TodoRepositoryForMemory) (k : Int) :
    r.find k = none ↔ k ∉ r.keys := by
  simp [find, keys, List.find?_eq_none, List.mem_map]
  aesop

theorem mem_of_find_eq_some {r : TodoRepositoryForMemory} {k : Int} {t : Todo}
    (h : r.find k = some t) : (k, t) ∈ r.store := by
  unfold find at h
  cases hf : r.store.find? (fun kv => kv.1 = k) with
  | none => rw [hf] at h; simp at h
  | some kv =>
    rw [hf] at h
    simp only [Option.map_some'] at h
    have hp := List.find?_some hf
    have hm := List.mem_of_find?_eq_some hf
    simp only [decide_eq_true_eq] at hp
    obtain ⟨k', t'⟩ := kv
    cases h
    cases hp
    exact hm

end TodoRepositoryForMemory

/-- C1: for every well-formed repository state and every `CreateTodo`
payload, `create` succeeds, returns a `Todo` with `completed = false`,
the payload's text, and the fresh id `nextId` held by no existing
entity; the new entity is appended to the store, the counter increases
by one (so ids are assigned monotonically increasing), and the fresh
repository starts the counter at 1. -/
theorem create_spec (r : TodoRepositoryForMemory) (p : CreateTodo) (h : r.WF) :
    (r.create p).1.completed = false ∧
    (r.create p).1.id = r.nextId ∧
    (r.create p).1.text = p.text ∧
    (r.create p).1.id ∉ r.keys ∧
    (r.create p).2.store = r.store ++ [((r.create p).1.id, (r.create p).1)] ∧
    (r.create p).2.nextId = r.nextId + 1 ∧
    TodoRepositoryForMemory.new.nextId = 1 := by
  refine ⟨rfl, rfl, rfl, ?_, rfl, rfl, rfl⟩
  intro hmem
  have hid : (r.create p).1.id = r.nextId := rfl
  rw [hid, TodoRepositoryForMemory.mem_keys_iff] at hmem
  obtain ⟨kv, hkv, hk⟩ := hmem
  have hlt := (h.1 kv hkv).2
  omega

/-- Witness for C1 at the fresh repository and the payload
`{text: "buy milk"}`. -/
theorem create_spec_witness :
    TodoRepositoryForMemory.new.WF ∧
    (TodoRepositoryForMemory.new.create { text := "buy milk" }).1.completed = false :=
  ⟨by decide, (create_spec TodoRepositoryForMemory.new { text := "buy milk" } (by decide)).1⟩

/-- C4: for every repository state and every id absent from the store,
`update` fails with `NotFound` for every payload, `delete` fails with
`NotFound`, and in both failure cases the repository state (hence the
stored collection) is unchanged. -/
theorem absent_id_notfound (r : TodoRepositoryForMemory) (k : Int) (p : UpdateTodo)
    (h : r.find k = none) :
    r.update k p = .error (.NotFound k) ∧
    r.delete k = .error (.NotFound k) ∧
    step r (.update k p) = r ∧
    step r (.delete k) = r := by
  have h1 : r.update k p = .error (.NotFound k) := by
    unfold TodoRepositoryForMemory.update
    rw [h]
  have h2 : r.delete k = .error (.NotFound k) := by
    unfold TodoRepositoryForMemory.delete
    rw [h]
  refine ⟨h1, h2, ?_, ?_⟩ <;> simp [step, h1, h2]

/-- Witness for C4 at the fresh repository, the absent id 5 and the
empty update payload. -/
theorem absent_id_notfound_witness :
    TodoRepositoryForMemory.new.find 5 = none ∧
    TodoRepositoryForMemory.new.update 5 { text := none, completed := none } =
      .error (.NotFound 5) :=
  ⟨by decide,
   (absent_id_notfound TodoRepositoryForMemory.new 5
     { text := none, completed := none } (by decide)).1⟩

namespace TodoRepositoryForMemory

theorem comp_update_pred (k j : Int) (t2 : Todo) :
    ((fun kv : Int × Todo => decide (kv.1 = j)) ∘
      (fun kv : Int × Todo => if kv.1 = k then (k, t2) else kv)) =
    fun kv : Int × Todo => decide (kv.1 = j) := by
  funext kv
  by_cases hk : kv.1 = k <;> simp [hk]

theorem keys_update_store (l : List (Int × Todo)) (k : Int) (t2 : Todo) :
    (l.map fun kv => if kv.1 = k then (k, t2) else kv).map Prod.fst =
      l.map Prod.fst := by
  induction l with
  | nil => rfl
  | cons kv rest ih => by_cases hk : kv.1 = k <;> simp [hk, ih]

end TodoRepositoryForMemory

/-- C3: for every stored `Todo` with id `k` and every `UpdateTodo`
payload, `update(k, payload)` succeeds and applies only the fields
present in the payload, leaving the others unchanged — an absent
`text` (resp. `completed`) leaves that field untouched — the entity's
id is never changed, the updated entity is stored at `k`, and no
other entity, no key and not the id counter is affected. -/
theorem update_spec (r : TodoRepositoryForMemory) (k : Int) (p : UpdateTodo) (t : Todo)
    (h : r.find k = some t) :
    ∃ t2 r2,
      r.update k p = .ok (t2, r2) ∧
      t2.id = t.id ∧
      t2.text = p.text.getD t.text ∧
      t2.completed = p.completed.getD t.completed ∧
      (p.text = none → t2.text = t.text) ∧
      (p.completed = none → t2.completed = t.completed) ∧
      r2.find k = some t2 ∧
      (∀ j, j ≠ k → r2.find j = r.find j) ∧
      r2.keys = r.keys ∧
      r2.nextId = r.nextId := by
  refine ⟨{ id := t.id, text := p.text.getD t.text
            completed := p.completed.getD t.completed },
    { store := r.store.map (fun kv => if kv.1 = k then
        (k, { id := t.id, text := p.text.getD t.text
              completed := p.completed.getD t.completed }) else kv)
      nextId := r.nextId }, ?_, rfl, rfl, rfl, ?_, ?_, ?_, ?_, ?_, rfl⟩
  · unfold TodoRepositoryForMemory.update
    rw [h]
  · intro hn
    simp [hn]
  · intro hn
    simp [hn]
  · unfold TodoRepositoryForMemory.find
    dsimp only
    rw [List.find?_map, TodoRepositoryForMemory.comp_update_pred]
    cases hf : r.store.find? (fun kv => kv.1 = k) with
    | none =>
      unfold TodoRepositoryForMemory.find at h
      rw [hf] at h
      simp at h
    | some kv0 =>
      have hp := List.find?_some hf
      simp only [decide_eq_true_eq] at hp
      simp [hp]
  · intro j hj
    unfold TodoRepositoryForMemory.find
    dsimp only
    rw [List.find?_map, TodoRepositoryForMemory.comp_update_pred]
    cases hf : r.store.find? (fun kv => kv.1 = j) with
    | none => simp
    | some kv0 =>
      have hp := List.find?_some hf
      simp only [decide_eq_true_eq] at hp
      have hne : kv0.1 ≠ k := by rw [hp]; exact hj
      simp [hne]
  · unfold TodoRepositoryForMemory.keys
    dsimp only
    exact TodoRepositoryForMemory.keys_update_store r.store k _

/-- Witness for C3: update the stored todo 1 with
`{text: Some "b", completed: None}`. -/
theorem update_spec_witness :
    (run [Op.create { text := "a" }]).find 1 = some (Todo.new 1 "a") ∧
    ∃ t2 r2,
      (run [Op.create { text := "a" }]).update 1
        { text := some "b", completed := none } = .ok (t2, r2) ∧
      t2.id = (Todo.new 1 "a").id ∧
      t2.text = (some "b").getD (Todo.new 1 "a").text ∧
      t2.completed = (none : Option Bool).getD (Todo.new 1 "a").completed ∧
      ((some "b" : Option String) = none → t2.text = (Todo.new 1 "a").text) ∧
      ((none : Option Bool) = none → t2.completed = (Todo.new 1 "a").completed) ∧
      r2.find 1 = some t2 ∧
      (∀ j, j ≠ 1 → r2.find j = (run [Op.create { text := "a" }]).find j) ∧
      r2.keys = (run [Op.create { text := "a" }]).keys ∧
      r2.nextId = (run [Op.create { text := "a" }]).nextId :=
  ⟨by decide,
   update_spec (run [Op.create { text := "a" }]) 1
     { text := some "b", completed := none } (Todo.new 1 "a") (by decide)⟩

namespace TodoRepositoryForMemory

theorem find?_filter_ne (l : List (Int × Todo)) (j k : Int) (hj : j ≠ k) :
    (l.filter fun kv => kv.1 ≠ k).find? (fun kv => kv.1 = j) =
      l.find? (fun kv => kv.1 = j) := by
  rw [List.find?_filter]
  congr 1
  funext kv
  by_cases hkj : kv.1 = j
  · have hkk : kv.1 ≠ k := fun hh => hj (hkj ▸ hh)
    simp only [hkj]
    simp [hj]
  · simp [hkj]

theorem filter_ne_length (l : List (Int × Todo)) (k : Int) (t : Todo)
    (hmem : (k, t) ∈ l) (hnd : (l.map Prod.fst).Nodup) :
    (l.filter fun kv => kv.1 ≠ k).length + 1 = l.length := by
  induction l with
  | nil => cases hmem
  | cons kv rest ih =>
    simp only [List.map_cons, List.nodup_cons] at hnd
    rcases List.mem_cons.mp hmem with heq | hmem'
    · have hk : kv.1 = k := by rw [← heq]
      have hrest : rest.filter (fun kv => decide (kv.1 ≠ k)) = rest := by
        rw [List.filter_eq_self]
        intro kv2 hkv2
        simp only [decide_eq_true_eq]
        intro hkk
        exact hnd.1 (hk ▸ hkk ▸ List.mem_map_of_mem Prod.fst hkv2)
      rw [List.filter_cons, if_neg (by simp [hk]), hrest, List.length_cons]
    · have hk : kv.1 ≠ k := by
        intro hh
        exact hnd.1 (hh ▸ (List.mem_map_of_mem Prod.fst hmem' : k ∈ rest.map Prod.fst))
      have hih := ih hmem' hnd.2
      rw [List.filter_cons, if_pos (by simp [hk]), List.length_cons, List.length_cons]
      omega

end TodoRepositoryForMemory

/-- C5: for every well-formed repository state and every id `k`
present in the store, `delete(k)` succeeds with no payload and removes
exactly that entity: a subsequent `find(k)` returns empty, every other
entity is untouched, and the store shrinks by exactly one entry. -/
theorem delete_spec (r : TodoRepositoryForMemory) (k : Int) (t : Todo)
    (hwf : r.WF) (h : r.find k = some t) :
    ∃ r2, r.delete k = .ok r2 ∧
      r2.find k = none ∧
      (∀ j, j ≠ k → r2.find j = r.find j) ∧
      r2.store.length + 1 = r.store.length ∧
      r2.nextId = r.nextId := by
  refine ⟨{ store := r.store.filter (fun kv => kv.1 ≠ k), nextId := r.nextId },
    ?_, ?_, ?_, ?_, rfl⟩
  · unfold TodoRepositoryForMemory.delete
    rw [h]
  · unfold TodoRepositoryForMemory.find
    dsimp only
    rw [Option.map_eq_none']
    rw [List.find?_eq_none]
    intro kv hkv
    have := (List.mem_filter.mp hkv).2
    simp only [decide_eq_true_eq] at this ⊢
    exact this
  · intro j hj
    unfold TodoRepositoryForMemory.find
    dsimp only
    rw [TodoRepositoryForMemory.find?_filter_ne r.store j k hj]
  · exact TodoRepositoryForMemory.filter_ne_length r.store k t
      (TodoRepositoryForMemory.mem_of_find_eq_some h) hwf.2

/-- Witness for C5: delete todo 1 after creating it. -/
theorem delete_spec_witness :
    (run [Op.create { text := "a" }]).WF ∧
    (run [Op.create { text := "a" }]).find 1 = some (Todo.new 1 "a") ∧
    ∃ r2, (run [Op.create { text := "a" }]).delete 1 = .ok r2 ∧
      r2.find 1 = none ∧
      (∀ j, j ≠ 1 → r2.find j = (run [Op.create { text := "a" }]).find j) ∧
      r2.store.length + 1 = (run [Op.create { text := "a" }]).store.length ∧
      r2.nextId = (run [Op.create { text := "a" }]).nextId :=
  ⟨by decide, by decide,
   delete_spec (run [Op.create { text := "a" }]) 1 (Todo.new 1 "a")
     (by decide) (by decide)⟩

/-- C9: no repository operation over either backend ever returns the
`Duplicate` error variant.  Memory backend: `create` is infallible and
`find` returns an option by their types, and `update` / `delete` fail
only with `NotFound`; label `delete` likewise.  Database backend
(spec-modelled): every operation — create, find, all, update, delete
for todos; create, all, delete for labels — fails only with
`Unexpected` (connection failure) or `NotFound`, never `Duplicate`,
for every state, connection status and input. -/
theorem no_duplicate_error :
    ∀ (r : TodoRepositoryForMemory) (lr : LabelRepositoryForMemory)
      (db : TodoRepositoryForDb) (ldb : LabelRepositoryForDb) (conn : Bool)
      (k : Int) (p : UpdateTodo) (c : CreateTodo) (lc : CreateLabel) (i : Int),
      r.update k p ≠ .error (.Duplicate i) ∧
      r.delete k ≠ .error (.Duplicate i) ∧
      (∀ e, r.update k p = .error e → e = .NotFound k) ∧
      (∀ e, r.delete k = .error e → e = .NotFound k) ∧
      lr.delete k ≠ .error (.Duplicate i) ∧
      db.create conn c ≠ .error (.Duplicate i) ∧
      db.find conn k ≠ .error (.Duplicate i) ∧
      db.all conn ≠ .error (.Duplicate i) ∧
      db.update conn k p ≠ .error (.Duplicate i) ∧
      db.delete conn k ≠ .error (.Duplicate i) ∧
      ldb.create conn lc ≠ .error (.Duplicate i) ∧
      ldb.all conn ≠ .error (.Duplicate i) ∧
      ldb.delete conn k ≠ .error (.Duplicate i) := by
  intro r lr db ldb conn k p c lc i
  have hu : ∀ e, r.update k p = .error e → e = .NotFound k := by
    intro e he
    unfold TodoRepositoryForMemory.update at he
    cases hf : r.find k <;> rw [hf] at he
    · injection he with h
      exact h.symm
    · simp at he
  have hd : ∀ e, r.delete k = .error e → e = .NotFound k := by
    intro e he
    unfold TodoRepositoryForMemory.delete at he
    cases hf : r.find k <;> rw [hf] at he
    · injection he with h
      exact h.symm
    · simp at he
  refine ⟨?_, ?_, hu, hd, ?_, ?_, ?_, ?_, ?_, ?_, ?_, ?_, ?_⟩
  · intro hcontra
    have := hu _ hcontra
    simp at this
  · intro hcontra
    have := hd _ hcontra
    simp at this
  · intro hc
    unfold LabelRepositoryForMemory.delete at hc
    cases hf : (lr.store.find? (fun kv => kv.1 = k)).map Prod.snd <;>
      rw [hf] at hc <;> simp at hc
  · intro hc
    unfold TodoRepositoryForDb.create at hc
    cases conn <;> simp at hc
  · intro hc
    unfold TodoRepositoryForDb.find at hc
    cases conn <;> simp at hc
  · intro hc
    unfold TodoRepositoryForDb.all at hc
    cases conn <;> simp at hc
  · intro hc
    unfold TodoRepositoryForDb.update at hc
    cases conn with
    | false => simp at hc
    | true =>
      cases hf : (db.rows.find? (fun kv => kv.1 = k)).map Prod.snd <;>
        rw [hf] at hc <;> simp at hc
  · intro hc
    unfold TodoRepositoryForDb.delete at hc
    cases conn with
    | false => simp at hc
    | true =>
      cases hf : (db.rows.find? (fun kv => kv.1 = k)).map Prod.snd <;>
        rw [hf] at hc <;> simp at hc
  · intro hc
    unfold LabelRepositoryForDb.create at hc
    cases conn <;> simp at hc
  · intro hc
    unfold LabelRepositoryForDb.all at hc
    cases conn <;> simp at hc
  · intro hc
    unfold LabelRepositoryForDb.delete at hc
    cases conn with
    | false => simp at hc
    | true =>
      cases hf : (ldb.rows.find? (fun kv => kv.1 = k)).map Prod.snd <;>
        rw [hf] at hc <;> simp at hc

namespace TodoRepositoryForMemory

theorem update_eq_error (r : TodoRepositoryForMemory) (id : Int) (p : UpdateTodo)
    (hf : r.find id = none) : r.update id p = .error (.NotFound id) := by
  unfold update
  rw [hf]

theorem update_eq_ok (r : TodoRepositoryForMemory) (id : Int) (p : UpdateTodo) (t : Todo)
    (hf : r.find id = some t) :
    r.update id p = .ok
      ({ id := t.id, text := p.text.getD t.text
         completed := p.completed.getD t.completed },
       { store := r.store.map (fun kv => if kv.1 = id then
           (id, { id := t.id, text := p.text.getD t.text
                  completed := p.completed.getD t.completed }) else kv)
         nextId := r.nextId }) := by
  unfold update
  rw [hf]

theorem delete_eq_error (r : TodoRepositoryForMemory) (id : Int)
    (hf : r.find id = none) : r.delete id = .error (.NotFound id) := by
  unfold delete
  rw [hf]

theorem delete_eq_ok (r : TodoRepositoryForMemory) (id : Int) (t : Todo)
    (hf : r.find id = some t) :
    r.delete id = .ok
      { store := r.store.filter (fun kv => kv.1 ≠ id), nextId := r.nextId } := by
  unfold delete
  rw [hf]

end TodoRepositoryForMemory

theorem keys_step_create (r : TodoRepositoryForMemory) (p : CreateTodo) :
    (step r (.create p)).keys = r.keys ++ [r.nextId] := by
  simp [step, TodoRepositoryForMemory.create, TodoRepositoryForMemory.keys]

theorem keys_step_update (r : TodoRepositoryForMemory) (id : Int) (p : UpdateTodo) :
    (step r (.update id p)).keys = r.keys := by
  cases hf : r.find id with
  | none =>
    have h := TodoRepositoryForMemory.update_eq_error r id p hf
    simp [step, h]
  | some t =>
    have h := TodoRepositoryForMemory.update_eq_ok r id p t hf
    simp [step, h, TodoRepositoryForMemory.keys,
      TodoRepositoryForMemory.keys_update_store]
    intro a b _
    by_cases ha : a = id <;> simp [ha]

theorem keys_step_delete_subset (r : TodoRepositoryForMemory) (id : Int) :
    ∀ k, k ∈ (step r (.delete id)).keys → k ∈ r.keys := by
  intro k hk
  cases hf : r.find id with
  | none =>
    have h := TodoRepositoryForMemory.delete_eq_error r id hf
    simp only [step, h] at hk
    exact hk
  | some t =>
    have h := TodoRepositoryForMemory.delete_eq_ok r id t hf
    simp only [step, h, TodoRepositoryForMemory.keys, List.mem_map] at hk ⊢
    obtain ⟨kv, hkv, hfst⟩ := hk
    exact ⟨kv, List.mem_of_mem_filter hkv, hfst⟩

theorem keys_foldl_subset (ops : List Op) :
    ∀ (r : TodoRepositoryForMemory) (k : Int),
      k ∈ (ops.foldl step r).keys → k ∈ r.keys ∨ k ∈ issuedFrom r ops := by
  induction ops with
  | nil =>
    intro r k h
    exact Or.inl h
  | cons op rest ih =>
    intro r k h
    rw [List.foldl_cons] at h
    rcases ih (step r op) k h with hk | hk
    · cases op with
      | create p =>
        rw [keys_step_create] at hk
        rcases List.mem_append.mp hk with h1 | h1
        · exact Or.inl h1
        · right
          have hkn : k = r.nextId := by simpa using h1
          rw [hkn]
          exact List.mem_cons_self _ _
      | update id p =>
        rw [keys_step_update] at hk
        exact Or.inl hk
      | delete id =>
        exact Or.inl (keys_step_delete_subset r id k hk)
    · right
      cases op with
      | create p => exact List.mem_cons_of_mem _ hk
      | update id p => exact hk
      | delete id => exact hk

/-- C2: creating an entity and then looking up its id with `find`
returns exactly that entity (on any well-formed state), and on any
trace of operations started from a fresh repository, `find` on an id
never issued by a `create` call returns an empty result — and by its
return type `Option Todo` it can never return an error. -/
theorem find_create_contract :
    (∀ (r : TodoRepositoryForMemory) (p : CreateTodo), r.WF →
      (r.create p).2.find (r.create p).1.id = some (r.create p).1) ∧
    (∀ (ops : List Op) (k : Int),
      k ∉ issuedFrom TodoRepositoryForMemory.new ops →
      (run ops).find k = none) := by
  constructor
  · intro r p hwf
    have hs : (r.create p).2.store = r.store ++ [(r.nextId, (r.create p).1)] := rfl
    have hid : (r.create p).1.id = r.nextId := rfl
    unfold TodoRepositoryForMemory.find
    rw [hs, hid, List.find?_append]
    have h1 : r.store.find? (fun kv => kv.1 = r.nextId) = none := by
      rw [List.find?_eq_none]
      intro kv hkv
      have hlt := (hwf.1 kv hkv).2
      simp only [decide_eq_true_eq]
      omega
    rw [h1]
    simp
  · intro ops k hk
    rw [TodoRepositoryForMemory.find_eq_none_iff]
    intro hkk
    rcases keys_foldl_subset ops TodoRepositoryForMemory.new k hkk with h1 | h1
    · simp [TodoRepositoryForMemory.new, TodoRepositoryForMemory.keys] at h1
    · exact hk h1

/-- Witness for C2: find after create on the fresh repository, and
find of the never-issued id 7 on the empty trace. -/
theorem find_create_contract_witness :
    TodoRepositoryForMemory.new.WF ∧
    (TodoRepositoryForMemory.new.create { text := "a" }).2.find
        (TodoRepositoryForMemory.new.create { text := "a" }).1.id =
      some (TodoRepositoryForMemory.new.create { text := "a" }).1 ∧
    (7 : Int) ∉ issuedFrom TodoRepositoryForMemory.new [] ∧
    (run []).find 7 = none :=
  ⟨by decide,
   find_create_contract.1 TodoRepositoryForMemory.new { text := "a" } (by decide),
   by decide,
   find_create_contract.2 [] 7 (by decide)⟩

/-- The ids `n, n+1, ..., n+len-1`, as assigned by `len` consecutive
`create` calls starting from counter value `n`. -/
def idsFrom (n : Int) : Nat → List Int
  | 0 => []
  | len + 1 => n :: idsFrom (n + 1) len

theorem idsFrom_length (len : Nat) : ∀ n : Int, (idsFrom n len).length = len := by
  induction len with
  | zero => intro n; rfl
  | succ l ih => intro n; simp [idsFrom, ih]

theorem mem_idsFrom {len : Nat} :
    ∀ {n x : Int}, x ∈ idsFrom n len → n ≤ x ∧ x < n + len := by
  induction len with
  | zero => intro n x h; cases h
  | succ l ih =>
    intro n x h
    rcases List.mem_cons.mp h with h1 | h1
    · subst h1
      constructor
      · omega
      · have : (0 : Int) < (l : Int) + 1 := by positivity
        push_cast
        omega
    · have := ih h1
      push_cast at this ⊢
      omega

theorem idsFrom_nodup (len : Nat) : ∀ n : Int, (idsFrom n len).Nodup := by
  induction len with
  | zero => intro n; simp [idsFrom]
  | succ l ih =>
    intro n
    rw [idsFrom, List.nodup_cons]
    refine ⟨?_, ih (n + 1)⟩
    intro hmem
    have := mem_idsFrom hmem
    omega

theorem foldl_creates (ps : List CreateTodo) :
    ∀ r : TodoRepositoryForMemory,
      ((ps.map Op.create).foldl step r).store =
        r.store ++ List.zipWith (fun i p => (i, Todo.new i p.text))
          (idsFrom r.nextId ps.length) ps ∧
      ((ps.map Op.create).foldl step r).nextId = r.nextId + ps.length ∧
      issuedFrom r (ps.map Op.create) = idsFrom r.nextId ps.length := by
  induction ps with
  | nil =>
    intro r
    refine ⟨by simp [idsFrom], by simp, by simp [issuedFrom, idsFrom]⟩
  | cons p rest ih =>
    intro r
    have hstep : step r (.create p) =
        { store := r.store ++ [(r.nextId, Todo.new r.nextId p.text)]
          nextId := r.nextId + 1 } := rfl
    obtain ⟨h1, h2, h3⟩ := ih (step r (.create p))
    rw [hstep] at h1 h2 h3
    refine ⟨?_, ?_, ?_⟩
    · rw [List.map_cons, List.foldl_cons, hstep, h1]
      simp [idsFrom]
    · rw [List.map_cons, List.foldl_cons, hstep, h2]
      simp only [List.length_cons]
      push_cast
      ring
    · rw [List.map_cons]
      show (r.create p).1.id ::
        issuedFrom (step r (.create p)) (rest.map Op.create) = _
      rw [hstep, h3]
      simp [idsFrom]
      rfl

theorem zip_map_fields (ps : List CreateTodo) :
    ∀ n : Int,
      ((List.zipWith (fun i p => ((i : Int), Todo.new i p.text))
          (idsFrom n ps.length) ps).map (fun kv => kv.2.id)) =
        idsFrom n ps.length ∧
      ((List.zipWith (fun i p => ((i : Int), Todo.new i p.text))
          (idsFrom n ps.length) ps).map (fun kv => kv.2.text)) =
        ps.map CreateTodo.text := by
  induction ps with
  | nil => intro n; simp [idsFrom]
  | cons p rest ih =>
    intro n
    obtain ⟨ih1, ih2⟩ := ih (n + 1)
    simp only [List.length_cons, idsFrom, List.zipWith_cons_cons, List.map_cons,
      ih1, ih2]
    exact ⟨rfl, rfl⟩

/-- C6: after `N` successful `create` calls (and no deletes) on a
fresh memory repository, `all()` returns exactly `N` entities, in
insertion order (their texts are the payload texts in order), whose
ids are exactly the ids issued by those creates, each exactly once
(the issued list is duplicate-free). -/
theorem all_after_creates (ps : List CreateTodo) :
    ((run (ps.map Op.create)).all).length = ps.length ∧
    ((run (ps.map Op.create)).all).map Todo.id =
      issuedFrom TodoRepositoryForMemory.new (ps.map Op.create) ∧
    (issuedFrom TodoRepositoryForMemory.new (ps.map Op.create)).Nodup ∧
    ((run (ps.map Op.create)).all).map Todo.text = ps.map CreateTodo.text := by
  obtain ⟨h1, h2, h3⟩ := foldl_creates ps TodoRepositoryForMemory.new
  have hnew : TodoRepositoryForMemory.new.store = [] := rfl
  have hnext : TodoRepositoryForMemory.new.nextId = 1 := rfl
  rw [hnew, hnext, List.nil_append] at h1
  rw [hnext] at h3
  have hall : (run (ps.map Op.create)).all =
      ((ps.map Op.create).foldl step TodoRepositoryForMemory.new).store.map
        Prod.snd := rfl
  obtain ⟨hz1, hz2⟩ := zip_map_fields ps 1
  refine ⟨?_, ?_, ?_, ?_⟩
  · rw [hall, h1]
    simp [List.length_zipWith, idsFrom_length]
  · rw [hall, h1, h3, List.map_map]
    exact hz1
  · rw [h3]
    exact idsFrom_nodup ps.length 1
  · rw [hall, h1, List.map_map]
    exact hz2

theorem wf_new : TodoRepositoryForMemory.new.WF := by
  constructor
  · intro kv hkv
    cases hkv
  · simp [TodoRepositoryForMemory.new, TodoRepositoryForMemory.keys]

theorem wf_step (r : TodoRepositoryForMemory) (op : Op) (h : r.WF) :
    (step r op).WF := by
  cases op with
  | create p =>
    have hs : (step r (.create p)).store =
        r.store ++ [(r.nextId, Todo.new r.nextId p.text)] := rfl
    have hn : (step r (.create p)).nextId = r.nextId + 1 := rfl
    constructor
    · intro kv hkv
      rw [hs] at hkv
      rw [hn]
      rcases List.mem_append.mp hkv with h1 | h1
      · have hv := h.1 kv h1
        exact ⟨hv.1, by omega⟩
      · have hkv2 : kv = (r.nextId, Todo.new r.nextId p.text) := by simpa using h1
        subst hkv2
        exact ⟨rfl, by omega⟩
    · rw [keys_step_create, List.nodup_append]
      refine ⟨h.2, List.nodup_singleton _, ?_⟩
      intro a ha hb
      have hab : a = r.nextId := by simpa using hb
      subst hab
      rw [TodoRepositoryForMemory.mem_keys_iff] at ha
      obtain ⟨kv, hkv, hfst⟩ := ha
      have := (h.1 kv hkv).2
      omega
  | update id p =>
    cases hf : r.find id with
    | none =>
      have heq : step r (.update id p) = r := by
        simp [step, TodoRepositoryForMemory.update_eq_error r id p hf]
      rw [heq]
      exact h
    | some t =>
      have hok := TodoRepositoryForMemory.update_eq_ok r id p t hf
      have htid : t.id = id :=
        (h.1 (id, t) (TodoRepositoryForMemory.mem_of_find_eq_some hf)).1
      constructor
      · intro kv hkv
        have hs : (step r (.update id p)).store =
            r.store.map (fun kv => if kv.1 = id then
              (id, { id := t.id, text := p.text.getD t.text
                     completed := p.completed.getD t.completed }) else kv) := by
          simp [step, hok]
        have hn : (step r (.update id p)).nextId = r.nextId := by
          simp [step, hok]
        rw [hs] at hkv
        rw [hn]
        obtain ⟨kv0, hkv0, hfkv0⟩ := List.mem_map.mp hkv
        by_cases hk0 : kv0.1 = id
        · rw [if_pos hk0] at hfkv0
          subst hfkv0
          have := (h.1 kv0 hkv0).2
          exact ⟨htid, by omega⟩
        · rw [if_neg hk0] at hfkv0
          subst hfkv0
          exact h.1 kv0 hkv0
      · have := keys_step_update r id p
        rw [this]
        exact h.2
  | delete id =>
    cases hf : r.find id with
    | none =>
      have heq : step r (.delete id) = r := by
        simp [step, TodoRepositoryForMemory.delete_eq_error r id hf]
      rw [heq]
      exact h
    | some t =>
      have hok := TodoRepositoryForMemory.delete_eq_ok r id t hf
      have hs : (step r (.delete id)).store =
          r.store.filter (fun kv => kv.1 ≠ id) := by simp [step, hok]
      have hn : (step r (.delete id)).nextId = r.nextId := by simp [step, hok]
      constructor
      · intro kv hkv
        rw [hs] at hkv
        rw [hn]
        exact h.1 kv (List.mem_of_mem_filter hkv)
      · show ((step r (.delete id)).store.map Prod.fst).Nodup
        rw [hs]
        exact List.Nodup.sublist
          (List.Sublist.map Prod.fst (List.filter_sublist r.store)) h.2

theorem wf_run (ops : List Op) : (run ops).WF := by
  have hgen : ∀ (l : List Op) (r : TodoRepositoryForMemory), r.WF →
      (l.foldl step r).WF := by
    intro l
    induction l with
    | nil => intro r h; exact h
    | cons op rest ih =>
      intro r h
      exact ih (step r op) (wf_step r op h)
  exact hgen ops TodoRepositoryForMemory.new wf_new
